import Mathlib

/-!
Verification of the flow-log classifier `logparser.py`.

The development shallowly embeds the two core functions of the program,
`load_lookup_table` and `tag_lines` (together with the `line_generator`
line source), over explicit data:

* a CSV file is a `List (List String)` of already-split rows;
* a flow-log file is a `List String` of raw lines;
* Python `dict` / `defaultdict` values are insertion-ordered association
  lists (`List (key × value)`), so that key presence, insertion order and
  overwriting behave exactly as in CPython;
* the Python string primitives used by the program (`str.split()`,
  `str.strip()`, `str.lower()`, `str.isdigit()`, `int(...)`) are modelled
  over ASCII text, which is the alphabet of the program's inputs;
* the `try/except (ValueError, IndexError)` block of `tag_lines` is
  modelled with an explicit exception type in `Except`, so that which
  exceptions a line can raise, and that they are all caught, are provable
  statements rather than artefacts of totality.
-/

/-! ## Python string primitives (ASCII model) -/

/-- Decimal value of an ASCII digit character. -/
def digitVal (c : Char) : Nat := c.toNat - 48

/-- Worker for `pySplit`: walks the characters, accumulating the current
token in reverse; whitespace ends the token (empty tokens are dropped,
as `str.split()` with no separator does). -/
def pySplitGo : List Char → List Char → List String
  | [], acc => if acc.isEmpty then [] else [String.mk acc.reverse]
  | c :: cs, acc =>
    if c.isWhitespace then
      if acc.isEmpty then pySplitGo cs [] else String.mk acc.reverse :: pySplitGo cs []
    else pySplitGo cs (c :: acc)

/-- Python `line.split()` (no separator argument): split on runs of
whitespace, discarding empty tokens. -/
def pySplit (s : String) : List String := pySplitGo s.toList []

/-- Python `line.strip()`: drop whitespace from both ends. -/
def pyStrip (s : String) : String :=
  String.mk (((s.toList.dropWhile Char.isWhitespace).reverse.dropWhile Char.isWhitespace).reverse)

/-- Python `s.lower()` on ASCII text. -/
def pyLower (s : String) : String := String.mk (s.toList.map Char.toLower)

/-- Python `s.isdigit()` on ASCII text: nonempty and all characters are
decimal digits. -/
def pyIsdigit (s : String) : Bool := !s.toList.isEmpty && s.toList.all Char.isDigit

/-- Decimal value of a digit string; used only where `pyIsdigit` has been
checked, where it agrees with Python `int(...)`. -/
def natOfDigits (s : String) : Nat := s.toList.foldl (fun a c => a * 10 + digitVal c) 0

/-- Worker for `pyInt`: consume digits, allowing single underscores
strictly between digits (Python 3 integer-literal grammar). -/
def pyDigitsGo : List Char → Nat → Option Nat
  | [], acc => some acc
  | c :: cs, acc =>
    if c.isDigit then pyDigitsGo cs (acc * 10 + digitVal c)
    else if c = '_' then
      match cs with
      | [] => none
      | d :: cs2 => if d.isDigit then pyDigitsGo cs2 (acc * 10 + digitVal d) else none
    else none

/-- Digits of a Python int literal: must start with a digit. -/
def pyIntCore : List Char → Option Nat
  | [] => none
  | c :: cs => if c.isDigit then pyDigitsGo cs (digitVal c) else none

/-- Python `int(s)` on ASCII text without surrounding whitespace (the
arguments in the program come from `str.split()`, so carry none):
optional sign, then digits with optional internal underscores.
Returns `none` where CPython raises `ValueError`. -/
def pyInt (s : String) : Option Int :=
  match s.toList with
  | '+' :: rest => (pyIntCore rest).map Int.ofNat
  | '-' :: rest => (pyIntCore rest).map (fun n => -(n : Int))
  | cs => (pyIntCore cs).map Int.ofNat

/-! ## Insertion-ordered dictionaries as association lists -/

/-- `d.get(k)` on an association list: first (and, by construction, only)
binding of `k`. -/
def afind {α β : Type} [DecidableEq α] : List (α × β) → α → Option β
  | [], _ => none
  | (k2, v) :: rest, k => if k2 = k then some v else afind rest k

/-- `d[k] = v` on an insertion-ordered dictionary: update in place if the
key is present, append at the end otherwise (CPython `dict` semantics). -/
def aset {α : Type} [DecidableEq α] : List (α × Nat) → α → Nat → List (α × Nat)
  | [], k, v => [(k, v)]
  | (k2, v2) :: rest, k, v =>
    if k2 = k then (k2, v) :: rest else (k2, v2) :: aset rest k v

/-- `d[k] += 1` on a `defaultdict(int)`: increment in place, or insert the
key with count 1 at the end. -/
def aincr {α : Type} [DecidableEq α] : List (α × Nat) → α → List (α × Nat)
  | [], k => [(k, 1)]
  | (k2, v) :: rest, k =>
    if k2 = k then (k2, v + 1) :: rest else (k2, v) :: aincr rest k

/-- `d[k].append(t)` on a `defaultdict(list)`: append to the list in
place, auto-vivifying an empty list for an absent key. -/
def lappend {α : Type} [DecidableEq α] : List (α × List String) → α → String → List (α × List String)
  | [], k, t => [(k, [t])]
  | (k2, ts) :: rest, k, t =>
    if k2 = k then (k2, ts ++ [t]) :: rest else (k2, ts) :: lappend rest k t

/-- Sum of all counts in a count dictionary. -/
def totalCount {α : Type} (d : List (α × Nat)) : Nat := (d.map Prod.snd).sum

/-! ## Data model -/

/-- A lookup key: destination port paired with protocol string. -/
abbrev LKey := Nat × String

/-- The lookup table: `defaultdict(list)` from key to tag list. -/
abbrev Lookup := List (LKey × List String)

/-- `lookup_dict.get(key, [])`. -/
def lookGet (lk : Lookup) (k : LKey) : List String := (afind lk k).getD []

/-- The mutable state of `tag_lines` while iterating over lines. -/
structure TagState where
  tag_counts : List (String × Nat)
  port_protocol_counts : List (LKey × Nat)
  untagged_count : Nat
deriving DecidableEq

/-- The state at the top of `tag_lines`: both dictionaries empty,
`untagged_count = 0`. -/
def initState : TagState := ⟨[], [], 0⟩

/-! ## Lookup table loader (`load_lookup_table`) -/

/-- One iteration of the row loop of `load_lookup_table`:
`if len(row) == 3: dstport, protocol, tag = row;
 if dstport.isdigit() and protocol in ('tcp', 'udp'):
 lookup_dict[(int(dstport), protocol.lower())].append(tag.lower())`. -/
def loadRow (d : Lookup) (row : List String) : Lookup :=
  if row.length = 3 then
    match row with
    | [dstport, protocol, tag] =>
      if pyIsdigit dstport ∧ (protocol = "tcp" ∨ protocol = "udp") then
        lappend d (natOfDigits dstport, pyLower protocol) (pyLower tag)
      else d
    | _ => d
  else d

/-- `load_lookup_table` over the rows the csv reader yields: fold the row
loop over an initially empty `defaultdict(list)`. -/
def load_lookup_table (rows : List (List String)) : Lookup :=
  rows.foldl loadRow []

/-- `load_lookup_table` in the presence of I/O failure.
`opened = false` models `open` itself raising (`FileNotFoundError` /
`PermissionError`): the loop never runs and the empty dictionary is
returned.  `opened = true` with `errDuring = true` models a
`csv.Error` / `IOError` raised by the reader after `rows` were already
consumed: the `except` handler only logs, and `return lookup_dict`
returns the table built so far. -/
def load_lookup_table_failure (opened : Bool) (rows : List (List String)) (errDuring : Bool) : Lookup :=
  if opened then load_lookup_table rows else []

/-! ## Line source (`line_generator`) -/

/-- `line_generator`: strip each raw line and drop the blank ones. -/
def lineGen (raw : List String) : List String :=
  (raw.map pyStrip).filter (fun s => s ≠ "")

/-! ## Record classifier (`tag_lines`) -/

/-- Python exceptions that the body of the line loop can raise. -/
inductive PyExn
  | valueError
  | indexError
  | otherError
deriving DecidableEq

/-- `fields[i]`: raises `IndexError` when out of range. -/
def getE (l : List String) (i : Nat) : Except PyExn String :=
  match l[i]? with
  | some s => Except.ok s
  | none => Except.error PyExn.indexError

/-- `int(s)`: raises `ValueError` when `s` is not an integer literal. -/
def pyIntE (s : String) : Except PyExn Int :=
  match pyInt s with
  | some n => Except.ok n
  | none => Except.error PyExn.valueError

/-- The `try` block of the line loop of `tag_lines`, for a line already
split into `fields` (of length 14 — the length check happens before the
`try`).  `Except.ok st` with `st` unchanged models a `continue` after a
failed validation check; `Except.error` models an exception escaping the
block. -/
def tryBody (lk : Lookup) (st : TagState) (fields : List String) : Except PyExn TagState :=
  match getE fields 0 with
  | Except.error e => Except.error e
  | Except.ok f0 =>
  match pyIntE f0 with
  | Except.error e => Except.error e
  | Except.ok version =>
  if version ≠ 2 then Except.ok st else
  match getE fields 5 with
  | Except.error e => Except.error e
  | Except.ok dstport =>
  match getE fields 7 with
  | Except.error e => Except.error e
  | Except.ok protocol =>
  match getE fields 13 with
  | Except.error e => Except.error e
  | Except.ok log_status =>
  if ¬ pyIsdigit dstport ∨ ¬ (natOfDigits dstport ≤ 65535) then Except.ok st else
  if protocol ≠ "6" ∧ protocol ≠ "17" then Except.ok st else
  if log_status ≠ "OK" then Except.ok st else
  let protocol_str := if protocol = "6" then "tcp" else "udp"
  let key : LKey := (natOfDigits dstport, protocol_str)
  let st1 : TagState := { st with port_protocol_counts := aincr st.port_protocol_counts key }
  let tags := lookGet lk key
  if tags.isEmpty then Except.ok { st1 with untagged_count := st1.untagged_count + 1 }
  else Except.ok { st1 with tag_counts := tags.foldl aincr st1.tag_counts }

/-- One iteration of the line loop of `tag_lines`: split the line, reject
on field count, run the `try` block, and catch `ValueError` and
`IndexError` (any other exception would propagate). -/
def processLineE (lk : Lookup) (st : TagState) (line : String) : Except PyExn TagState :=
  if (pySplit line).length ≠ 14 then Except.ok st
  else
    match tryBody lk st (pySplit line) with
    | Except.ok st2 => Except.ok st2
    | Except.error PyExn.valueError => Except.ok st
    | Except.error PyExn.indexError => Except.ok st
    | Except.error e => Except.error e

/-- The state after one line, given that no exception propagates (proved
below: `processLineE` always returns `Except.ok`). -/
def processLine (lk : Lookup) (st : TagState) (line : String) : TagState :=
  match processLineE lk st line with
  | Except.ok st2 => st2
  | Except.error _ => st

/-- `tag_lines`: fold the line loop over the generated lines, then
`tag_counts['untagged'] = untagged_count` as the final step. -/
def tag_lines (raw : List String) (lk : Lookup) : List (String × Nat) × List (LKey × Nat) :=
  let st := (lineGen raw).foldl (processLine lk) initState
  (aset st.tag_counts "untagged" st.untagged_count, st.port_protocol_counts)

/-! ## Derived per-line outcome (proved to characterise the loop body) -/

/-- The validation outcome of a line already split into fields: `some key`
when it passes every check of `tag_lines` (14 fields, version parses to
2, digit port at most 65535, protocol "6"/"17", status "OK"), `none`
when it is rejected or its version field fails to parse. -/
def lineOutcomeF (f : List String) : Option LKey :=
  if f.length ≠ 14 then none
  else
    match pyInt (f.getD 0 "") with
    | none => none
    | some version =>
      if version ≠ 2 then none
      else
        let dstport := f.getD 5 ""
        let protocol := f.getD 7 ""
        let log_status := f.getD 13 ""
        if ¬ pyIsdigit dstport ∨ ¬ (natOfDigits dstport ≤ 65535) then none
        else if protocol ≠ "6" ∧ protocol ≠ "17" then none
        else if log_status ≠ "OK" then none
        else some (natOfDigits dstport, if protocol = "6" then "tcp" else "udp")

/-- The validation outcome of one raw line. -/
def lineOutcome (line : String) : Option LKey := lineOutcomeF (pySplit line)

/-- The effect of one line on the state, as a function of its outcome. -/
def applyOutcome (lk : Lookup) (st : TagState) : Option LKey → TagState
  | none => st
  | some key =>
    let st1 : TagState := { st with port_protocol_counts := aincr st.port_protocol_counts key }
    let tags := lookGet lk key
    if tags.isEmpty then { st1 with untagged_count := st1.untagged_count + 1 }
    else { st1 with tag_counts := tags.foldl aincr st1.tag_counts }

/-- A line is valid when it passes all validation checks. -/
def validB (line : String) : Bool := (lineOutcome line).isSome

/-- A line is untagged when it is valid and its key has no tags. -/
def untaggedB (lk : Lookup) (line : String) : Bool :=
  match lineOutcome line with
  | some key => (lookGet lk key).isEmpty
  | none => false

/-- A line is tagged when it is valid and its key has at least one tag. -/
def taggedB (lk : Lookup) (line : String) : Bool :=
  match lineOutcome line with
  | some key => !(lookGet lk key).isEmpty
  | none => false

/-! ## Association-list lemmas -/

theorem afind_aincr_self {α : Type} [DecidableEq α] (d : List (α × Nat)) (k : α) :
    afind (aincr d k) k = some ((afind d k).getD 0 + 1) := by
  induction d with
  | nil => simp [afind, aincr]
  | cons hd tl ih =>
    obtain ⟨k2, v⟩ := hd
    by_cases h : k2 = k
    · subst h; simp [afind, aincr]
    · simp [afind, aincr, h, ih]

theorem afind_aincr_ne {α : Type} [DecidableEq α] (d : List (α × Nat)) (k k2 : α)
    (h : k2 ≠ k) : afind (aincr d k) k2 = afind d k2 := by
  induction d with
  | nil => simp [afind, aincr, Ne.symm h]
  | cons hd tl ih =>
    obtain ⟨k3, v⟩ := hd
    by_cases h3 : k3 = k
    · subst h3
      simp [afind, aincr, Ne.symm h]
    · simp [afind, aincr, h3, ih]

theorem afind_aset_self {α : Type} [DecidableEq α] (d : List (α × Nat)) (k : α) (v : Nat) :
    afind (aset d k v) k = some v := by
  induction d with
  | nil => simp [afind, aset]
  | cons hd tl ih =>
    obtain ⟨k2, v2⟩ := hd
    by_cases h : k2 = k
    · subst h; simp [afind, aset]
    · simp [afind, aset, h, ih]

theorem totalCount_aincr {α : Type} [DecidableEq α] (d : List (α × Nat)) (k : α) :
    totalCount (aincr d k) = totalCount d + 1 := by
  induction d with
  | nil => simp [totalCount, aincr]
  | cons hd tl ih =>
    obtain ⟨k2, v⟩ := hd
    by_cases h : k2 = k
    · subst h; simp [totalCount, aincr]; omega
    · simp [totalCount, aincr, h] at ih ⊢; omega

theorem mem_aset {α : Type} [DecidableEq α] (d : List (α × Nat)) (k : α) (v : Nat)
    (kv : α × Nat) (h : kv ∈ aset d k v) : kv ∈ d ∨ kv = (k, v) := by
  induction d with
  | nil => simp [aset] at h; right; exact h
  | cons hd tl ih =>
    obtain ⟨k2, v2⟩ := hd
    by_cases h2 : k2 = k
    · subst h2
      simp [aset] at h
      rcases h with h | h
      · right; simp [h]
      · left; simp [h]
    · simp [aset, h2] at h
      rcases h with h | h
      · left; simp [h]
      · rcases ih h with h3 | h3
        · left; simp [h3]
        · right; exact h3

theorem aincr_vals_pos {α : Type} [DecidableEq α] (d : List (α × Nat)) (k : α)
    (hd : ∀ kv ∈ d, 1 ≤ kv.2) : ∀ kv ∈ aincr d k, 1 ≤ kv.2 := by
  induction d with
  | nil => simp [aincr]
  | cons h0 tl ih =>
    obtain ⟨k2, v⟩ := h0
    by_cases h : k2 = k
    · subst h
      intro kv hkv
      simp [aincr] at hkv
      rcases hkv with h1 | h1
      · simp [h1]
      · exact hd kv (by simp [h1])
    · intro kv hkv
      simp [aincr, h] at hkv
      rcases hkv with h1 | h1
      · exact hd kv (by simp [h1])
      · exact ih (fun kv2 hkv2 => hd kv2 (by simp [hkv2])) kv h1

theorem foldl_aincr_vals_pos (ts : List String) (d : List (String × Nat))
    (hd : ∀ kv ∈ d, 1 ≤ kv.2) : ∀ kv ∈ ts.foldl aincr d, 1 ≤ kv.2 := by
  induction ts generalizing d with
  | nil => simpa [List.foldl] using hd
  | cons t ts ih =>
    intro kv hkv
    exact ih (aincr d t) (aincr_vals_pos d t hd) kv hkv

theorem afind_foldl_aincr_count (ts : List String) (d : List (String × Nat)) (t : String) :
    (afind (ts.foldl aincr d) t).getD 0 = (afind d t).getD 0 + ts.count t := by
  induction ts generalizing d with
  | nil => simp
  | cons t2 ts ih =>
    rw [List.foldl_cons, ih]
    by_cases h : t2 = t
    · subst h
      rw [afind_aincr_self]
      simp [List.count_cons]
      omega
    · rw [afind_aincr_ne d t2 t (Ne.symm h)]
      simp [List.count_cons, h]

/-! ## Characterisation of the line loop body -/

theorem tryBody_catch_char (lk : Lookup) (st : TagState) (f : List String)
    (h : f.length = 14) :
    (match tryBody lk st f with
     | Except.ok st2 => Except.ok st2
     | Except.error PyExn.valueError => Except.ok st
     | Except.error PyExn.indexError => Except.ok st
     | Except.error e => Except.error e)
    = Except.ok (applyOutcome lk st (lineOutcomeF f)) := by
  rcases f with _ | ⟨a0, _ | ⟨a1, _ | ⟨a2, _ | ⟨a3, _ | ⟨a4, _ | ⟨a5, _ | ⟨a6, _ | ⟨a7,
    _ | ⟨a8, _ | ⟨a9, _ | ⟨a10, _ | ⟨a11, _ | ⟨a12, _ | ⟨a13, _ | ⟨a14, tl⟩⟩⟩⟩⟩⟩⟩⟩⟩⟩⟩⟩⟩⟩⟩ <;>
    first
      | (exfalso; simp only [List.length_cons, List.length_nil] at h; omega)
      | skip
  cases hp : pyInt a0 with
  | none => simp [tryBody, getE, pyIntE, lineOutcomeF, hp, applyOutcome]
  | some v =>
    simp only [tryBody, getE, pyIntE, lineOutcomeF, hp, applyOutcome,
      List.getElem?_cons_zero, List.getElem?_cons_succ, List.getD_cons_zero, List.getD_cons_succ]
    split_ifs <;> simp_all [applyOutcome]

theorem processLineE_char (lk : Lookup) (st : TagState) (line : String) :
    processLineE lk st line = Except.ok (applyOutcome lk st (lineOutcome line)) := by
  unfold processLineE lineOutcome
  by_cases h14 : (pySplit line).length = 14
  · rw [if_neg (by simp [h14])]
    exact tryBody_catch_char lk st (pySplit line) h14
  · rw [if_pos (by simp [h14])]
    unfold lineOutcomeF
    rw [if_pos (by simp [h14])]
    rfl

theorem processLine_char (lk : Lookup) (st : TagState) (line : String) :
    processLine lk st line = applyOutcome lk st (lineOutcome line) := by
  unfold processLine
  rw [processLineE_char]

/-! ## Per-line and per-fold effect lemmas -/

theorem untagged_step (lk : Lookup) (st : TagState) (line : String) :
    (processLine lk st line).untagged_count
      = st.untagged_count + (if untaggedB lk line then 1 else 0) := by
  rw [processLine_char]
  unfold applyOutcome untaggedB
  cases lineOutcome line with
  | none => simp
  | some key =>
    by_cases h : (lookGet lk key).isEmpty <;> simp [h]

theorem ppc_step (lk : Lookup) (st : TagState) (line : String) :
    totalCount (processLine lk st line).port_protocol_counts
      = totalCount st.port_protocol_counts + (if validB line then 1 else 0) := by
  rw [processLine_char]
  unfold applyOutcome validB
  cases lineOutcome line with
  | none => simp
  | some key =>
    by_cases h : (lookGet lk key).isEmpty <;> simp [h, totalCount_aincr]

theorem tc_step_emptyLookup (st : TagState) (line : String) :
    (processLine [] st line).tag_counts = st.tag_counts := by
  rw [processLine_char]
  unfold applyOutcome
  cases lineOutcome line with
  | none => rfl
  | some key => simp [lookGet, afind]

theorem untagged_fold (lk : Lookup) (lines : List String) (st : TagState) :
    (lines.foldl (processLine lk) st).untagged_count
      = st.untagged_count + lines.countP (fun l => untaggedB lk l) := by
  induction lines generalizing st with
  | nil => simp
  | cons l ls ih =>
    rw [List.foldl_cons, ih, untagged_step, List.countP_cons]
    by_cases h : untaggedB lk l <;> simp [h] <;> omega

theorem ppc_fold (lk : Lookup) (lines : List String) (st : TagState) :
    totalCount (lines.foldl (processLine lk) st).port_protocol_counts
      = totalCount st.port_protocol_counts + lines.countP (fun l => validB l) := by
  induction lines generalizing st with
  | nil => simp
  | cons l ls ih =>
    rw [List.foldl_cons, ih, ppc_step, List.countP_cons]
    by_cases h : validB l <;> simp [h] <;> omega

theorem tc_fold_emptyLookup (lines : List String) (st : TagState) :
    (lines.foldl (processLine []) st).tag_counts = st.tag_counts := by
  induction lines generalizing st with
  | nil => rfl
  | cons l ls ih =>
    rw [List.foldl_cons, ih, tc_step_emptyLookup]

theorem valid_eq_untagged_or_tagged (lk : Lookup) (l : String) :
    validB l = (untaggedB lk l || taggedB lk l) := by
  unfold validB untaggedB taggedB
  cases lineOutcome l with
  | none => simp
  | some key => by_cases h : (lookGet lk key).isEmpty <;> simp [h]

theorem not_untagged_and_tagged (lk : Lookup) (l : String) :
    ¬(untaggedB lk l = true ∧ taggedB lk l = true) := by
  unfold untaggedB taggedB
  cases lineOutcome l with
  | none => simp
  | some key => by_cases h : (lookGet lk key).isEmpty <;> simp [h]

theorem countP_valid_split (lk : Lookup) (lines : List String) :
    lines.countP (fun l => validB l)
      = lines.countP (fun l => untaggedB lk l) + lines.countP (fun l => taggedB lk l) := by
  induction lines with
  | nil => simp
  | cons l ls ih =>
    simp only [List.countP_cons]
    rw [ih, valid_eq_untagged_or_tagged lk l]
    have hnb := not_untagged_and_tagged lk l
    by_cases h1 : untaggedB lk l <;> by_cases h2 : taggedB lk l <;>
      simp [h1, h2] at hnb ⊢ <;> omega

/-! ## Validation outcome: both directions -/

theorem lineOutcome_eq_some (line : String)
    (h14 : (pySplit line).length = 14)
    (hv : pyInt ((pySplit line).getD 0 "") = some 2)
    (hd : pyIsdigit ((pySplit line).getD 5 "") = true)
    (hr : natOfDigits ((pySplit line).getD 5 "") ≤ 65535)
    (hp : (pySplit line).getD 7 "" = "6" ∨ (pySplit line).getD 7 "" = "17")
    (hs : (pySplit line).getD 13 "" = "OK") :
    lineOutcome line = some (natOfDigits ((pySplit line).getD 5 ""),
      if (pySplit line).getD 7 "" = "6" then "tcp" else "udp") := by
  unfold lineOutcome lineOutcomeF
  rw [if_neg (by simp [h14]), hv]
  dsimp only
  rw [if_neg (by simp)]
  rw [if_neg (by push_neg; exact ⟨hd, hr⟩)]
  rw [if_neg (fun hc => hp.elim (fun h => hc.1 h) (fun h => hc.2 h))]
  rw [if_neg (fun hc => hc hs)]

theorem lineOutcome_some_checks (line : String) (k : LKey)
    (h : lineOutcome line = some k) :
    (pySplit line).length = 14 ∧
    pyInt ((pySplit line).getD 0 "") = some 2 ∧
    pyIsdigit ((pySplit line).getD 5 "") = true ∧
    natOfDigits ((pySplit line).getD 5 "") ≤ 65535 ∧
    ((pySplit line).getD 7 "" = "6" ∨ (pySplit line).getD 7 "" = "17") ∧
    (pySplit line).getD 13 "" = "OK" ∧
    k = (natOfDigits ((pySplit line).getD 5 ""),
      if (pySplit line).getD 7 "" = "6" then "tcp" else "udp") := by
  unfold lineOutcome lineOutcomeF at h
  by_cases h14 : (pySplit line).length = 14
  · rw [if_neg (by simp [h14])] at h
    cases hp : pyInt ((pySplit line).getD 0 "") with
    | none => rw [hp] at h; exact absurd h (by simp)
    | some v =>
      rw [hp] at h
      dsimp only at h
      by_cases h1 : v ≠ 2
      · rw [if_pos h1] at h; exact absurd h (by simp)
      · rw [if_neg h1] at h
        by_cases h2 : ¬ pyIsdigit ((pySplit line).getD 5 "") ∨
            ¬ (natOfDigits ((pySplit line).getD 5 "") ≤ 65535)
        · rw [if_pos h2] at h; exact absurd h (by simp)
        · rw [if_neg h2] at h
          by_cases h3 : (pySplit line).getD 7 "" ≠ "6" ∧ (pySplit line).getD 7 "" ≠ "17"
          · rw [if_pos h3] at h; exact absurd h (by simp)
          · rw [if_neg h3] at h
            by_cases h4 : (pySplit line).getD 13 "" ≠ "OK"
            · rw [if_pos h4] at h; exact absurd h (by simp)
            · rw [if_neg h4] at h
              push_neg at h1 h2 h3 h4
              refine ⟨h14, ?_, h2.1, h2.2, ?_, h4, by simpa using h.symm⟩
              · exact congrArg some h1
              · by_cases hq : (pySplit line).getD 7 "" = "6"
                · exact Or.inl hq
                · exact Or.inr (h3 hq)
  · rw [if_pos (by simp [h14])] at h
    exact absurd h (by simp)

/-! ## Claim theorems -/

/-- C5: a flow-log line that fails any one of the validation checks
(field count not 14, version not parsing to 2, port not a digit string
in [0,65535], protocol not "6"/"17", status not "OK") performs zero
increments: the whole classifier state — tag counts, port/protocol
counts and the untagged counter — is unchanged by that line. -/
theorem invalid_line_changes_nothing (lk : Lookup) (st : TagState) (line : String)
    (h : (pySplit line).length ≠ 14 ∨
      pyInt ((pySplit line).getD 0 "") ≠ some 2 ∨
      ¬ (pyIsdigit ((pySplit line).getD 5 "") = true ∧
        natOfDigits ((pySplit line).getD 5 "") ≤ 65535) ∨
      ¬ ((pySplit line).getD 7 "" = "6" ∨ (pySplit line).getD 7 "" = "17") ∨
      (pySplit line).getD 13 "" ≠ "OK") :
    processLine lk st line = st := by
  rw [processLine_char]
  cases ho : lineOutcome line with
  | none => rfl
  | some k =>
    exfalso
    obtain ⟨c1, c2, c3, c4, c5, c6, -⟩ := lineOutcome_some_checks line k ho
    rcases h with h | h | h | h | h
    · exact h c1
    · exact h c2
    · exact h ⟨c3, c4⟩
    · exact h c5
    · exact h c6

/-- Witness for C5 at a line whose protocol field is "99". -/
theorem invalid_line_changes_nothing_witness :
    ¬ ((pySplit "2 a b c d 443 e 99 f g h i j OK").getD 7 "" = "6" ∨
      (pySplit "2 a b c d 443 e 99 f g h i j OK").getD 7 "" = "17") ∧
    processLine [] initState "2 a b c d 443 e 99 f g h i j OK" = initState :=
  ⟨by decide, invalid_line_changes_nothing [] initState _ (by
    right; right; right; left; decide)⟩

/-- C6 counterexample: the line "02 a b c d 443 e 6 f g h i j OK" has
field 0 equal to "02", not the exact string "2", yet it is counted:
`int("02") == 2`, so the version check passes and the tallies change
(the port/protocol count for (443, tcp) and the untagged counter both
become 1). -/
theorem version_string_02_accepted :
    (pySplit "02 a b c d 443 e 6 f g h i j OK").getD 0 "" = "02" ∧
    processLine [] initState "02 a b c d 443 e 6 f g h i j OK"
      = ⟨[], [((443, "tcp"), 1)], 1⟩ ∧
    processLine [] initState "02 a b c d 443 e 6 f g h i j OK" ≠ initState := by
  refine ⟨by decide, by decide, by decide⟩

/-- C6 amended: a flow-log line contributes to the counts only if its
field 0 parses, as a Python integer literal, to the value 2 (so "02" or
"+2" are also accepted, not only the exact string "2"); any line whose
field 0 does not parse to 2 is skipped with no tally change. -/
theorem line_counted_only_if_version_parses_to_two (lk : Lookup) (st : TagState)
    (line : String) (h : pyInt ((pySplit line).getD 0 "") ≠ some 2) :
    processLine lk st line = st := by
  rw [processLine_char]
  cases ho : lineOutcome line with
  | none => rfl
  | some k => exact absurd (lineOutcome_some_checks line k ho).2.1 h

/-- Witness for amended C6 at a line whose version field is "3". -/
theorem line_counted_only_if_version_parses_to_two_witness :
    pyInt ((pySplit "3 a b c d 443 e 6 f g h i j OK").getD 0 "") ≠ some 2 ∧
    processLine [] initState "3 a b c d 443 e 6 f g h i j OK" = initState :=
  ⟨by decide, line_counted_only_if_version_parses_to_two [] initState _ (by decide)⟩

/-- C8: processing a single line never lets an exception escape.  The
only exceptions the loop body can raise are `ValueError` (from
`int(fields[0])`) and `IndexError` (from field indexing); both are
caught by the per-line handler, the line then contributes no counts
(the state is returned unchanged), and processing continues. -/
theorem per_line_exceptions_all_caught (lk : Lookup) (st : TagState) (line : String) :
    (∃ st2, processLineE lk st line = Except.ok st2) ∧
    (∀ e, tryBody lk st (pySplit line) = Except.error e →
      processLineE lk st line = Except.ok st) := by
  constructor
  · exact ⟨_, processLineE_char lk st line⟩
  · intro e he
    by_cases h14 : (pySplit line).length = 14
    · cases e with
      | valueError =>
        unfold processLineE
        rw [if_neg (by simp [h14]), he]
      | indexError =>
        unfold processLineE
        rw [if_neg (by simp [h14]), he]
      | otherError =>
        exfalso
        have hc := processLineE_char lk st line
        unfold processLineE at hc
        rw [if_neg (by simp [h14]), he] at hc
        simp at hc
    · unfold processLineE
      rw [if_pos (by simp [h14])]

/-- Witness for C8 at a 14-field line whose version field raises
`ValueError`. -/
theorem per_line_exceptions_all_caught_witness :
    tryBody [] initState (pySplit "x a b c d e f g h i j k l m")
      = Except.error PyExn.valueError ∧
    processLineE [] initState "x a b c d e f g h i j k l m"
      = Except.ok initState :=
  ⟨by rfl, (per_line_exceptions_all_caught [] initState _).2 PyExn.valueError (by rfl)⟩

/-- C1: a flow-log line with exactly 14 whitespace-separated fields whose
field 0 parses to the integer 2, whose field 5 is a digit string with
value in [0,65535], whose field 7 is "6" or "17" and whose field 13 is
"OK" increments the port/protocol count by exactly 1 at the key
(port, "tcp" if field 7 is "6" else "udp") and at no other key,
increments the tag count of every tag associated with that key in the
lookup table by 1 per occurrence, and increments the untagged counter
by exactly 1 if and only if the key has no tags. -/
theorem valid_line_increments_counts (lk : Lookup) (st : TagState) (line : String)
    (key : LKey)
    (h14 : (pySplit line).length = 14)
    (hv : pyInt ((pySplit line).getD 0 "") = some 2)
    (hd : pyIsdigit ((pySplit line).getD 5 "") = true)
    (hr : natOfDigits ((pySplit line).getD 5 "") ≤ 65535)
    (hp : (pySplit line).getD 7 "" = "6" ∨ (pySplit line).getD 7 "" = "17")
    (hs : (pySplit line).getD 13 "" = "OK")
    (hkey : key = (natOfDigits ((pySplit line).getD 5 ""),
      if (pySplit line).getD 7 "" = "6" then "tcp" else "udp")) :
    (afind (processLine lk st line).port_protocol_counts key).getD 0
        = (afind st.port_protocol_counts key).getD 0 + 1 ∧
    (∀ k2, k2 ≠ key → afind (processLine lk st line).port_protocol_counts k2
        = afind st.port_protocol_counts k2) ∧
    (∀ t, (afind (processLine lk st line).tag_counts t).getD 0
        = (afind st.tag_counts t).getD 0 + (lookGet lk key).count t) ∧
    (processLine lk st line).untagged_count
        = st.untagged_count + (if lookGet lk key = [] then 1 else 0) := by
  have ho : lineOutcome line = some key := by
    rw [hkey]; exact lineOutcome_eq_some line h14 hv hd hr hp hs
  rw [processLine_char, ho]
  unfold applyOutcome
  dsimp only
  by_cases ht : (lookGet lk key).isEmpty
  · rw [if_pos ht]
    have he : lookGet lk key = [] := by simpa using ht
    refine ⟨?_, ?_, ?_, ?_⟩
    · simp [afind_aincr_self]
    · intro k2 hk2; exact afind_aincr_ne _ _ _ hk2
    · intro t; simp [he]
    · simp [he]
  · rw [if_neg ht]
    have he : lookGet lk key ≠ [] := by simpa using ht
    refine ⟨?_, ?_, ?_, ?_⟩
    · simp [afind_aincr_self]
    · intro k2 hk2; exact afind_aincr_ne _ _ _ hk2
    · intro t; simp [afind_foldl_aincr_count]
    · simp [he]

/-- Witness for C1: lookup table tagging (443, tcp) as "web", one valid
tcp line on port 443. -/
theorem valid_line_increments_counts_witness :
    (afind (processLine [((443, "tcp"), ["web"])] initState
        "2 a b c d 443 e 6 f g h i j OK").port_protocol_counts (443, "tcp")).getD 0 = 1 ∧
    (afind (processLine [((443, "tcp"), ["web"])] initState
        "2 a b c d 443 e 6 f g h i j OK").tag_counts "web").getD 0 = 1 ∧
    (processLine [((443, "tcp"), ["web"])] initState
        "2 a b c d 443 e 6 f g h i j OK").untagged_count = 0 := by
  have h := valid_line_increments_counts [((443, "tcp"), ["web"])] initState
    "2 a b c d 443 e 6 f g h i j OK" (443, "tcp")
    (by decide) (by decide) (by decide) (by decide) (Or.inl (by decide)) (by decide)
    (by decide)
  obtain ⟨h1, h2, h3, h4⟩ := h
  refine ⟨?_, ?_, ?_⟩
  · rw [h1]; decide
  · rw [h3 "web"]; decide
  · rw [h4]; decide

/-- C4: in the tag counts returned by `tag_lines`, the key "untagged" is
always present and its value equals the number of valid lines whose key
has no lookup entry — it is assigned as the final step, so even a
literal lookup tag named "untagged" is overwritten by this total. -/
theorem untagged_key_final_value (raw : List String) (lk : Lookup) :
    afind (tag_lines raw lk).1 "untagged"
      = some ((lineGen raw).countP (fun l => untaggedB lk l)) := by
  simp only [tag_lines]
  rw [afind_aset_self, untagged_fold]
  simp [initState]

/-- C9: the sum of all port/protocol counts returned by `tag_lines`
equals the final untagged count plus the number of lines that
incremented at least one tag count: every valid line performs its
port/protocol increment together with exactly one of a tag increment or
an untagged increment. -/
theorem ppc_total_eq_untagged_plus_tagged (raw : List String) (lk : Lookup) :
    totalCount (tag_lines raw lk).2
      = (afind (tag_lines raw lk).1 "untagged").getD 0
        + (lineGen raw).countP (fun l => taggedB lk l) := by
  simp only [tag_lines]
  rw [afind_aset_self]
  simp only [Option.getD_some]
  rw [ppc_fold, untagged_fold, countP_valid_split lk]
  simp [initState, totalCount]

/-! ## Positivity of stored counts -/

theorem step_vals_pos (lk : Lookup) (st : TagState) (line : String)
    (h1 : ∀ kv ∈ st.port_protocol_counts, 1 ≤ kv.2)
    (h2 : ∀ tv ∈ st.tag_counts, 1 ≤ tv.2) :
    (∀ kv ∈ (processLine lk st line).port_protocol_counts, 1 ≤ kv.2) ∧
    (∀ tv ∈ (processLine lk st line).tag_counts, 1 ≤ tv.2) := by
  rw [processLine_char]
  cases lineOutcome line with
  | none => exact ⟨h1, h2⟩
  | some key =>
    unfold applyOutcome
    dsimp only
    by_cases ht : (lookGet lk key).isEmpty
    · rw [if_pos ht]
      exact ⟨aincr_vals_pos _ _ h1, h2⟩
    · rw [if_neg ht]
      exact ⟨aincr_vals_pos _ _ h1, foldl_aincr_vals_pos _ _ h2⟩

theorem fold_vals_pos (lk : Lookup) (lines : List String) (st : TagState)
    (h1 : ∀ kv ∈ st.port_protocol_counts, 1 ≤ kv.2)
    (h2 : ∀ tv ∈ st.tag_counts, 1 ≤ tv.2) :
    (∀ kv ∈ (lines.foldl (processLine lk) st).port_protocol_counts, 1 ≤ kv.2) ∧
    (∀ tv ∈ (lines.foldl (processLine lk) st).tag_counts, 1 ≤ tv.2) := by
  induction lines generalizing st with
  | nil => exact ⟨h1, h2⟩
  | cons l ls ih =>
    rw [List.foldl_cons]
    obtain ⟨g1, g2⟩ := step_vals_pos lk st l h1 h2
    exact ih _ g1 g2

/-- C10: in the pair returned by `tag_lines`, every stored port/protocol
count is at least 1, and every tag-count entry other than the reserved
key "untagged" is at least 1; only "untagged" can be 0. -/
theorem final_counts_positivity (raw : List String) (lk : Lookup) :
    (∀ kv ∈ (tag_lines raw lk).2, 1 ≤ kv.2) ∧
    (∀ tv ∈ (tag_lines raw lk).1, tv.1 ≠ "untagged" → 1 ≤ tv.2) := by
  obtain ⟨g1, g2⟩ := fold_vals_pos lk (lineGen raw) initState
    (by simp [initState]) (by simp [initState])
  constructor
  · intro kv hkv
    exact g1 kv (by simpa only [tag_lines] using hkv)
  · intro tv htv hne
    rcases mem_aset _ _ _ tv (by simpa only [tag_lines] using htv) with h | h
    · exact g2 tv h
    · exact absurd (by rw [h]) hne

/-- Witness for C10 on one valid tagged line. -/
theorem final_counts_positivity_witness :
    ((443, "tcp"), 1) ∈
      (tag_lines ["2 a b c d 443 e 6 f g h i j OK"] [((443, "tcp"), ["web"])]).2 ∧
    ("web", 1) ∈
      (tag_lines ["2 a b c d 443 e 6 f g h i j OK"] [((443, "tcp"), ["web"])]).1 ∧
    1 ≤ (((443, "tcp"), 1) : LKey × Nat).2 ∧ 1 ≤ (("web", 1) : String × Nat).2 :=
  ⟨by decide, by decide,
    (final_counts_positivity ["2 a b c d 443 e 6 f g h i j OK"]
      [((443, "tcp"), ["web"])]).1 ((443, "tcp"), 1) (by decide),
    (final_counts_positivity ["2 a b c d 443 e 6 f g h i j OK"]
      [((443, "tcp"), ["web"])]).2 ("web", 1) (by decide) (by decide)⟩

/-- C7 counterexample: when the csv reader raises mid-file (a `csv.Error`
or `IOError` after one row was already consumed), the handler only logs
and `load_lookup_table` returns the partially built table — not the
empty table the claim states. -/
theorem partial_table_after_read_error :
    load_lookup_table_failure true [["80", "tcp", "web"]] true
      = [((80, "tcp"), ["web"])] ∧
    load_lookup_table_failure true [["80", "tcp", "web"]] true ≠ [] := by
  refine ⟨by decide, by decide⟩

/-- C7 amended: if the lookup file cannot be opened (missing or
permission denied) the loader returns the empty table; a read error
mid-iteration returns the table built from the rows already consumed.
Downstream classification runs either way, and with an empty table every
valid line increments its port/protocol count and the final "untagged"
count equals the number of valid lines. -/
theorem loader_failure_empty_table_downstream :
    (∀ rows e, load_lookup_table_failure false rows e = []) ∧
    (∀ rows e, load_lookup_table_failure true rows e = load_lookup_table rows) ∧
    (∀ raw, (tag_lines raw []).1
      = [("untagged", (lineGen raw).countP (fun l => validB l))]) ∧
    (∀ raw, totalCount (tag_lines raw []).2
      = (lineGen raw).countP (fun l => validB l)) := by
  refine ⟨fun rows e => rfl, fun rows e => rfl, fun raw => ?_, fun raw => ?_⟩
  · simp only [tag_lines]
    rw [tc_fold_emptyLookup, untagged_fold]
    have hcong : (lineGen raw).countP (fun l => untaggedB [] l)
        = (lineGen raw).countP (fun l => validB l) := by
      apply List.countP_congr
      intro l _
      unfold untaggedB validB
      cases lineOutcome l <;> simp [lookGet, afind]
    simp [initState, aset, hcong]
  · simp only [tag_lines]
    rw [ppc_fold]
    simp [initState, totalCount]

/-- C2 counterexample: a lookup row whose protocol field is "TCP" meets
the claim's case-insensitive acceptance condition, yet the loader's
check `protocol in ('tcp', 'udp')` runs before any lowercasing, so the
row is rejected and the table stays empty. -/
theorem lookup_row_uppercase_protocol_rejected :
    pyLower "TCP" = "tcp" ∧ load_lookup_table [["443", "TCP", "Web"]] = [] := by
  refine ⟨by decide, by decide⟩

/-- C2 amended: a three-field lookup row is accepted iff its port field
is a digit string and its protocol field is exactly the lowercase
string "tcp" or "udp" (the check is case-sensitive, so "TCP" or "Udp"
rows are skipped); an accepted row stores the lowercased tag under
(port value, lowercased protocol). -/
theorem lookup_row_acceptance_case_sensitive (p proto tag : String) :
    load_lookup_table [[p, proto, tag]] =
      if pyIsdigit p ∧ (proto = "tcp" ∨ proto = "udp")
      then [((natOfDigits p, pyLower proto), [pyLower tag])]
      else [] := by
  unfold load_lookup_table
  rw [List.foldl_cons, List.foldl_nil]
  unfold loadRow
  rw [if_pos (by rfl)]
  dsimp only
  by_cases h : pyIsdigit p ∧ (proto = "tcp" ∨ proto = "udp")
  · rw [if_pos h, if_pos h]; rfl
  · rw [if_neg h, if_neg h]

/-! ## Provenance of lookup-table keys -/

theorem mem_map_fst_lappend {α : Type} [DecidableEq α]
    (d : List (α × List String)) (k0 k : α) (t : String) :
    k ∈ (lappend d k0 t).map Prod.fst ↔ (k ∈ d.map Prod.fst ∨ k = k0) := by
  induction d with
  | nil => simp [lappend]
  | cons hd tl ih =>
    obtain ⟨k2, ts⟩ := hd
    by_cases h : k2 = k0
    · subst h
      simp [lappend]
      tauto
    · simp [lappend, h, ih]
      tauto

theorem mem_keys_loadRow (d : Lookup) (row : List String) (k : LKey)
    (h : k ∈ (loadRow d row).map Prod.fst) :
    k ∈ d.map Prod.fst ∨ ∃ p proto tag, row = [p, proto, tag] ∧
      pyIsdigit p = true ∧ (proto = "tcp" ∨ proto = "udp") ∧
      k = (natOfDigits p, pyLower proto) := by
  unfold loadRow at h
  by_cases h3 : row.length = 3
  · rw [if_pos h3] at h
    rcases row with _ | ⟨p, _ | ⟨proto, _ | ⟨tag, _ | ⟨x, rest⟩⟩⟩⟩
    · simp at h3
    · simp at h3
    · simp at h3
    · dsimp only at h
      by_cases hacc : pyIsdigit p ∧ (proto = "tcp" ∨ proto = "udp")
      · rw [if_pos hacc] at h
        rcases (mem_map_fst_lappend d _ k _).mp h with h0 | h0
        · exact Or.inl h0
        · exact Or.inr ⟨p, proto, tag, rfl, hacc.1, hacc.2, h0⟩
      · rw [if_neg hacc] at h
        exact Or.inl h
    · simp [List.length_cons] at h3
  · rw [if_neg h3] at h
    exact Or.inl h

theorem mem_keys_fold (rows : List (List String)) (d : Lookup) (k : LKey)
    (h : k ∈ ((rows.foldl loadRow d).map Prod.fst)) :
    k ∈ d.map Prod.fst ∨ ∃ p proto tag, [p, proto, tag] ∈ rows ∧
      pyIsdigit p = true ∧ (proto = "tcp" ∨ proto = "udp") ∧
      k = (natOfDigits p, pyLower proto) := by
  induction rows generalizing d with
  | nil => exact Or.inl h
  | cons row rows ih =>
    rw [List.foldl_cons] at h
    rcases ih (loadRow d row) h with h0 | h0
    · rcases mem_keys_loadRow d row k h0 with h1 | ⟨p, proto, tag, hrow, hd2, hp2, hk⟩
      · exact Or.inl h1
      · exact Or.inr ⟨p, proto, tag, by simp [hrow], hd2, hp2, hk⟩
    · obtain ⟨p, proto, tag, hmem, rest⟩ := h0
      exact Or.inr ⟨p, proto, tag, by simp [hmem], rest.1, rest.2.1, rest.2.2⟩

/-- C3 counterexample: the loader performs no upper-bound check on the
port field, so the row ("99999", "tcp", "big") — whose port exceeds
65535 — is accepted and introduces the key (99999, tcp). -/
theorem lookup_key_port_exceeds_16bit :
    lookGet (load_lookup_table [["99999", "tcp", "big"]]) (99999, "tcp") = ["big"] ∧
    (99999, "tcp") ∈ (load_lookup_table [["99999", "tcp", "big"]]).map Prod.fst ∧
    ¬ ((99999 : Nat) ≤ 65535) := by
  refine ⟨by decide, by decide, by decide⟩

/-- C3 amended: every key of the built lookup table comes from an
accepted row: its port is the decimal value of that row's digit-string
port field — a non-negative integer that the loader does not bound, so
ports above 65535 can occur — and its protocol is the row's protocol
lowercased. -/
theorem lookup_keys_from_accepted_rows (rows : List (List String)) (k : LKey)
    (h : k ∈ (load_lookup_table rows).map Prod.fst) :
    ∃ p proto tag, [p, proto, tag] ∈ rows ∧ pyIsdigit p = true ∧
      (proto = "tcp" ∨ proto = "udp") ∧ k = (natOfDigits p, pyLower proto) := by
  rcases mem_keys_fold rows [] k h with h0 | h0
  · simp at h0
  · exact h0

/-- Witness for amended C3 at a single accepted row. -/
theorem lookup_keys_from_accepted_rows_witness :
    ((80 : Nat), "tcp") ∈ (load_lookup_table [["80", "tcp", "web"]]).map Prod.fst ∧
    (∃ p proto tag, [p, proto, tag] ∈ [["80", "tcp", "web"]] ∧ pyIsdigit p = true ∧
      (proto = "tcp" ∨ proto = "udp") ∧
      ((80 : Nat), "tcp") = (natOfDigits p, pyLower proto)) :=
  ⟨by decide, lookup_keys_from_accepted_rows [["80", "tcp", "web"]] (80, "tcp") (by decide)⟩
